import Mathlib

/-!
Shallow embedding of the ECS core of `EvanderRPT/2dgameengine`
(`src/ECS/ECS.h`, `src/ECS/ECS.cpp`).

Modelling conventions:
* `std::bitset<MAX_COMPONENTS>` signatures are `Nat` with the usual bitwise
  operations; only bits below `MAX_COMPONENTS` are ever set by ids produced by
  `Component<T>::GetId` in a run that stays within the limit.
* Component payloads are opaque and modelled as `Nat`.
* `std::type_index` keys (for component kinds and for system kinds) are opaque
  and modelled as `Nat`.
* `Entity` values are compared, ordered and hashed by `id` only
  (`Entity::operator==` / `operator<`), so entity lists and sets store ids.
* `std::set<Entity>` is a sorted duplicate-free list of ids; iteration is in
  ascending id order.
* `std::unordered_map` is an association list; `insert` is a no-op on an
  existing key, lookup order is irrelevant because keys are never duplicated.
* Logging (`Logger::Log`) has no effect on ECS state and is omitted.
-/

/-- MAX_COMPONENTS from ECS.h: `const unsigned int MAX_COMPONENTS = 32`. -/
def MAX_COMPONENTS : Nat := 32

/-- Models `Signature::set(i)` (std::bitset::set with value true): set bit `i`. -/
def sigSet (s i : Nat) : Nat := s ||| 2 ^ i

/-- Models `Signature::set(i, false)`: clear bit `i` (xor away the bit when present). -/
def sigClear (s i : Nat) : Nat := if Nat.testBit s i then s ^^^ 2 ^ i else s

/-- Models `Signature::test(i)`. -/
def sigTest (s i : Nat) : Bool := Nat.testBit s i

/-- Models `Pool<T>` (ECS.h): a `std::vector<T>`; `size` is `data.size()` and `data`
gives the contents of each slot (slots at indices `≥ size` are dead storage,
kept at the default value `0`). -/
structure Pool where
  size : Nat
  data : Nat → Nat

/-- Models `Pool::Pool(int size = 100)`: `data.resize(100)`, 100 value-initialized slots. -/
def Pool.new : Pool := ⟨100, fun _ => 0⟩

/-- Models `Pool::Resize(n)` (`std::vector::resize`): surviving slots keep their
values, new slots are value-initialized. -/
def Pool.resize (p : Pool) (n : Nat) : Pool :=
  ⟨n, fun i => if i < n ∧ i < p.size then p.data i else 0⟩

/-- Models `Pool::Set(index, object)`: `data[index] = object`. -/
def Pool.set (p : Pool) (i v : Nat) : Pool :=
  { p with data := fun j => if j = i then v else p.data j }

/-- Models `class System` (ECS.h): the required `componentSignature` and the matched
`entities` vector, in insertion order, entities stored by id. -/
structure ECSSystem where
  componentSignature : Nat
  entities : List Nat
deriving DecidableEq

/-- Models `System::AddEntityToSystem(entity)`: `entities.push_back(entity)`. -/
def ECSSystem.AddEntityToSystem (s : ECSSystem) (e : Nat) : ECSSystem :=
  { s with entities := s.entities ++ [e] }

/-- Association-list lookup, modelling `find` on a map keyed by `std::type_index`. -/
def alookup {β : Type} (k : Nat) : List (Nat × β) → Option β
  | [] => none
  | p :: ps => if p.1 = k then some p.2 else alookup k ps

/-- Models `std::set<Entity>::insert`: keep the id list sorted and duplicate-free. -/
def setInsert (x : Nat) : List Nat → List Nat
  | [] => [x]
  | y :: ys => if x < y then x :: y :: ys else if x = y then y :: ys else y :: setInsert x ys

/-- Models `class Registry` (ECS.h).

* `numEntities`, `componentPools`, `systems`, `entitiesToBeAdded`,
  `entitiesToBeKilled` mirror the members of the same names.
* `sigTableSize` is `entityComponentSignatures.size()`; `Registry::CreateEntity`
  only calls `reserve` on this vector, which changes capacity but never size.
* `entityComponentSignatures` gives the signature value stored in slot `j` of
  the table, as accessed by `operator[]` (the C++ accesses are out of bounds
  because of the `reserve` bug, see the C3 theorems; the slot contents are
  modelled as a total function, unwritten slots holding the empty signature). -/
structure Registry where
  numEntities : Nat
  componentPools : List (Option Pool)
  sigTableSize : Nat
  entityComponentSignatures : Nat → Nat
  systems : List (Nat × ECSSystem)
  entitiesToBeAdded : List Nat
  entitiesToBeKilled : List Nat

/-- Models a fresh `Registry` (all members default-constructed and `numEntities = 0`). -/
def initRegistry : Registry := ⟨0, [], 0, fun _ => 0, [], [], []⟩

/-- Models `Entity` (ECS.h): the `id`, and the `class Registry* registry` member.
The pointer is modelled as `Option Nat` (an identity of a registry object);
`none` models a pointer to which no assignment has ever been made. -/
structure Entity where
  id : Nat
  registry : Option Nat
deriving DecidableEq

/-- Models `Registry::CreateEntity()` state change: `entityId = numEntities++`,
`entitiesToBeAdded.insert(entity)`, and
`entityComponentSignatures.reserve(entityId + 1)` — `reserve` changes only the
capacity of the vector, so `sigTableSize` is unchanged. -/
def Registry.CreateEntity (r : Registry) : Registry :=
  { r with numEntities := r.numEntities + 1,
           entitiesToBeAdded := setInsert r.numEntities r.entitiesToBeAdded }

/-- Models `Registry::CreateEntity()` together with its return value: the body runs
`Entity entity(entityId);` whose constructor `Entity(int id): id(id) {}` sets only
`id`; no statement of `CreateEntity` assigns the `registry` member, so the handle
is returned with that member never assigned (`none`). -/
def Registry.CreateEntityRet (r : Registry) : Entity × Registry :=
  (⟨r.numEntities, none⟩, r.CreateEntity)

/-- Models `Registry::AddComponent<TComponent>(entity, args...)` where `cid` is
`Component<TComponent>::GetId()`, `eid` is `entity.GetId()` and `v` is the
component value `TComponent(std::forward<TArgs>(args)...)`:
resize `componentPools` with null pools if `cid` is out of range, lazily create
the pool, resize the pool to `numEntities` if `eid` is out of its range, store
`v` at index `eid`, and set bit `cid` of the entity's signature slot. -/
def Registry.AddComponent (r : Registry) (eid cid v : Nat) : Registry :=
  let pools1 := if r.componentPools.length ≤ cid
    then r.componentPools ++ List.replicate (cid + 1 - r.componentPools.length) (none : Option Pool)
    else r.componentPools
  let p0 := match pools1[cid]? with
    | some (some p) => p
    | _ => Pool.new
  let p1 := if p0.size ≤ eid then p0.resize r.numEntities else p0
  { r with componentPools := pools1.set cid (some (p1.set eid v)),
           entityComponentSignatures := fun j =>
             if j = eid then sigSet (r.entityComponentSignatures j) cid
             else r.entityComponentSignatures j }

/-- Models `Registry::RemoveComponent<TComponent>(entity)`:
`entityComponentSignatures[entityId].set(componentId, false)` and nothing else. -/
def Registry.RemoveComponent (r : Registry) (eid cid : Nat) : Registry :=
  { r with entityComponentSignatures := fun j =>
      if j = eid then sigClear (r.entityComponentSignatures j) cid
      else r.entityComponentSignatures j }

/-- Models `Registry::HasComponent<TComponent>(entity)`:
`entityComponentSignatures[entityId].test(componentId)`. -/
def Registry.HasComponent (r : Registry) (eid cid : Nat) : Bool :=
  sigTest (r.entityComponentSignatures eid) cid

/-- Models `Registry::AddSystem<TSystem>(args...)`: construct the new system (a
freshly constructed system has an empty `entities` vector and the required
signature `sig` its constructor established via `RequireComponent`) and
`systems.insert(...)` keyed by `std::type_index(typeid(TSystem))` (modelled `k`);
`std::unordered_map::insert` does nothing when the key is already present. -/
def Registry.AddSystem (r : Registry) (k sig : Nat) : Registry :=
  match alookup k r.systems with
  | some _ => r
  | none => { r with systems := r.systems ++ [(k, ⟨sig, []⟩)] }

/-- Models `Registry::GetSystem<TSystem>()`: look the system up by kind (the C++
dereferences the iterator unconditionally and returns the system by value;
a missing key is undefined behaviour, modelled `none`). -/
def Registry.GetSystem (r : Registry) (k : Nat) : Option ECSSystem :=
  alookup k r.systems

/-- Models `Registry::AddEntityToSystem(entity)` (ECS.cpp): read the entity's
signature slot, then for every registered system append the entity when
`(entityComponentSignature & systemComponentSignature) == systemComponentSignature`. -/
def Registry.AddEntityToSystem (r : Registry) (e : Nat) : Registry :=
  { r with systems := r.systems.map (fun p =>
      if Nat.land (r.entityComponentSignatures e) p.2.componentSignature
           = p.2.componentSignature
      then (p.1, p.2.AddEntityToSystem e) else p) }

/-- Models `Registry::Update()`: for each entity in `entitiesToBeAdded` (a
`std::set<Entity>`, iterated in ascending id order) call `AddEntityToSystem`,
then clear `entitiesToBeAdded`. -/
def Registry.Update (r : Registry) : Registry :=
  { r.entitiesToBeAdded.foldl Registry.AddEntityToSystem r with entitiesToBeAdded := [] }

/-- One operation of the registry's public mutating interface, with component
kinds already resolved to their ids and component values to their payloads. -/
inductive Op where
  | createEntity : Op
  | addComponent (eid cid v : Nat) : Op
  | removeComponent (eid cid : Nat) : Op
  | addSystem (k sig : Nat) : Op
  | update : Op
deriving DecidableEq

/-- Apply one operation to a registry. -/
def step (r : Registry) : Op → Registry
  | .createEntity => r.CreateEntity
  | .addComponent e c v => r.AddComponent e c v
  | .removeComponent e c => r.RemoveComponent e c
  | .addSystem k sig => r.AddSystem k sig
  | .update => r.Update

/-- Run a list of operations from a given registry state. -/
def runFrom (r : Registry) (ops : List Op) : Registry := ops.foldl step r

/-- Run a list of operations from a fresh registry. -/
def runOps (ops : List Op) : Registry := runFrom initRegistry ops

/-- Whether entity `e` is currently in the matched entity list of the system
keyed `k` (false when no such system is registered). -/
def memb (r : Registry) (k e : Nat) : Bool :=
  match alookup k r.systems with
  | some s => decide (e ∈ s.entities)
  | none => false

/-- Whether, in state `r`, the signature of entity `e` satisfies the required
signature of the system keyed `k` (false when no such system is registered). -/
def matchesAt (r : Registry) (e k : Nat) : Bool :=
  match alookup k r.systems with
  | some s => decide (Nat.land (r.entityComponentSignatures e) s.componentSignature
                        = s.componentSignature)
  | none => false

/-- The registry state at the moment an `Update()` call last drained entity `e`
from `entitiesToBeAdded`, while running `ops` from `r` (`none` when no `Update`
in the run drains `e`). -/
def lastDrainState (r : Registry) (ops : List Op) (e : Nat) : Option Registry :=
  match ops with
  | [] => none
  | op :: rest =>
    match lastDrainState (step r op) rest e with
    | some r₀ => some r₀
    | none =>
      match op with
      | .update => if e ∈ r.entitiesToBeAdded then some r else none
      | _ => none

/-- The scenario run of claim C9: three entities, kind id 0 attached to entities
0 and 1 (with payload 7), one system keyed 0 requiring exactly kind 0, one update. -/
def c9Ops : List Op :=
  [Op.createEntity, Op.createEntity, Op.createEntity,
   Op.addComponent 0 0 7, Op.addComponent 1 0 7,
   Op.addSystem 0 (2 ^ 0), Op.update]

lemma sigTableSize_AddEntityToSystem (r : Registry) (e : Nat) :
    (r.AddEntityToSystem e).sigTableSize = r.sigTableSize := rfl

lemma sigTableSize_foldl_AddEntityToSystem (l : List Nat) (r : Registry) :
    (l.foldl Registry.AddEntityToSystem r).sigTableSize = r.sigTableSize := by
  induction l generalizing r with
  | nil => rfl
  | cons e l ih => simpa [List.foldl] using ih (r.AddEntityToSystem e)

lemma sigTableSize_step (r : Registry) (op : Op) :
    (step r op).sigTableSize = r.sigTableSize := by
  cases op with
  | update => exact sigTableSize_foldl_AddEntityToSystem _ _
  | addSystem k sig =>
    show (Registry.AddSystem r k sig).sigTableSize = r.sigTableSize
    unfold Registry.AddSystem
    cases alookup k r.systems <;> rfl
  | _ => rfl

lemma sigTableSize_runFrom (ops : List Op) (r : Registry) :
    (runFrom r ops).sigTableSize = r.sigTableSize := by
  induction ops generalizing r with
  | nil => rfl
  | cons op ops ih =>
    simpa [runFrom, List.foldl, sigTableSize_step] using ih (step r op)

/-- Claim C3 (code bug): the claim says the per-entity signature table is sized
to at least the number of entities created so far, but `Registry::CreateEntity`
only ever calls `entityComponentSignatures.reserve(entityId + 1)`, which changes
the vector's capacity, never its size, and no other operation resizes the table;
so after any sequence of operations the table size is still `0`, while already a
single `CreateEntity` makes `numEntities = 1`, and the new entity's id `0` is
not a valid index into the (empty) table. -/
theorem c3_signature_table_never_sized :
    (∀ ops : List Op, (runOps ops).sigTableSize = 0)
    ∧ (runOps [Op.createEntity]).numEntities = 1
    ∧ ¬ (runOps [Op.createEntity]).numEntities ≤ (runOps [Op.createEntity]).sigTableSize :=
  ⟨fun ops => sigTableSize_runFrom ops initRegistry, rfl, by decide⟩

/-- Claim C8 (code bug): the handle returned by `Registry::CreateEntity` carries
the fresh id, but its `registry` back-pointer member is never assigned by
`CreateEntity` (the claim says every returned handle carries a back-reference to
the creating registry, which the convenience operations dereference). -/
theorem c8_created_entity_has_no_registry_backref :
    ∀ r : Registry,
      (r.CreateEntityRet.1.registry = none) ∧ r.CreateEntityRet.1.id = r.numEntities :=
  fun _ => ⟨rfl, rfl⟩

/-- Claim C9: in the run that creates entities 0, 1, 2, attaches kind 0 to
entities 0 and 1, registers a system requiring kind 0, and updates once, that
system's matched list is exactly `[0, 1]` in that order, and entity 2 is absent. -/
theorem c9_scenario_matched_list :
    alookup 0 (runOps c9Ops).systems = some ⟨2 ^ 0, [0, 1]⟩
    ∧ memb (runOps c9Ops) 0 2 = false := by
  decide

/-- Claim C10: `Registry::AddSystem` on a kind that is already registered is a
no-op (`std::unordered_map::insert` does not overwrite an existing key), so the
registry is unchanged and a later `GetSystem` still yields the originally
registered system, whatever the newly constructed system's signature was. -/
theorem c10_addSystem_existing_key_noop (r : Registry) (k sig : Nat) (s : ECSSystem)
    (h : alookup k r.systems = some s) :
    r.AddSystem k sig = r ∧ (r.AddSystem k sig).GetSystem k = some s := by
  have hr : r.AddSystem k sig = r := by
    unfold Registry.AddSystem
    rw [h]
  exact ⟨hr, by rw [hr]; exact h⟩

/-- Witness for C10 at a concrete registry: a system keyed 3 with required
signature 5 is registered, then re-added with a different signature 9. -/
theorem c10_witness :
    (runOps [Op.addSystem 3 5]).AddSystem 3 9 = runOps [Op.addSystem 3 5]
    ∧ ((runOps [Op.addSystem 3 5]).AddSystem 3 9).GetSystem 3 = some ⟨5, []⟩ :=
  c10_addSystem_existing_key_noop (runOps [Op.addSystem 3 5]) 3 9 ⟨5, []⟩ (by decide)

lemma testBit_sigSet_self (s i : Nat) : Nat.testBit (sigSet s i) i = true := by
  simp [sigSet, Nat.testBit_lor, Nat.testBit_two_pow_self]

lemma testBit_sigSet_ne (s i j : Nat) (h : j ≠ i) :
    Nat.testBit (sigSet s i) j = Nat.testBit s j := by
  simp [sigSet, Nat.testBit_lor, Nat.testBit_two_pow_of_ne (Ne.symm h)]

lemma testBit_sigClear_self (s i : Nat) : Nat.testBit (sigClear s i) i = false := by
  cases h : Nat.testBit s i with
  | false => simp [sigClear, h]
  | true => simp [sigClear, h, Nat.testBit_xor, Nat.testBit_two_pow_self]

lemma testBit_sigClear_ne (s i j : Nat) (h : j ≠ i) :
    Nat.testBit (sigClear s i) j = Nat.testBit s j := by
  cases hs : Nat.testBit s i with
  | false => simp [sigClear, hs]
  | true => simp [sigClear, hs, Nat.testBit_xor, Nat.testBit_two_pow_of_ne (Ne.symm h)]

lemma sigSet_idem (s i : Nat) : sigSet (sigSet s i) i = sigSet s i := by
  apply Nat.eq_of_testBit_eq
  intro j
  by_cases h : j = i
  · subst h; simp [testBit_sigSet_self]
  · simp [testBit_sigSet_ne _ _ _ h]

lemma sigClear_of_testBit_false (s i : Nat) (h : Nat.testBit s i = false) :
    sigClear s i = s := by
  simp [sigClear, h]

/-- Clearing a signature bit that is not set leaves the whole registry unchanged. -/
lemma RemoveComponent_of_testBit_false (r : Registry) (e cid : Nat)
    (h : Nat.testBit (r.entityComponentSignatures e) cid = false) :
    r.RemoveComponent e cid = r := by
  unfold Registry.RemoveComponent
  have hsig : (fun j => if j = e then sigClear (r.entityComponentSignatures j) cid
                        else r.entityComponentSignatures j)
      = r.entityComponentSignatures := by
    funext j
    by_cases hj : j = e
    · subst hj; simp [sigClear_of_testBit_false _ _ h]
    · simp [hj]
  rw [hsig]

/-- The effect of one `Registry::AddEntityToSystem` call on the system map alone. -/
def interestedStep (sg e : Nat) (sys : List (Nat × ECSSystem)) : List (Nat × ECSSystem) :=
  sys.map (fun p =>
    if Nat.land sg p.2.componentSignature = p.2.componentSignature
    then (p.1, p.2.AddEntityToSystem e) else p)

/-- The per-system effect of the whole drain loop in `Update`. -/
def drainSystems (sigf : Nat → Nat) (l : List Nat) (sys : List (Nat × ECSSystem)) :
    List (Nat × ECSSystem) :=
  l.foldl (fun acc e => interestedStep (sigf e) e acc) sys

lemma foldl_AddEntityToSystem_eq (l : List Nat) (r : Registry) :
    l.foldl Registry.AddEntityToSystem r
      = { r with systems := drainSystems r.entityComponentSignatures l r.systems } := by
  induction l generalizing r with
  | nil => rfl
  | cons e l ih =>
    show l.foldl Registry.AddEntityToSystem (r.AddEntityToSystem e) = _
    rw [ih (r.AddEntityToSystem e)]
    rfl

lemma Update_eq (r : Registry) :
    r.Update = { r with
      systems := drainSystems r.entityComponentSignatures r.entitiesToBeAdded r.systems,
      entitiesToBeAdded := [] } := by
  unfold Registry.Update
  rw [foldl_AddEntityToSystem_eq]

lemma signatures_step_addSystem (r : Registry) (k sig : Nat) :
    (r.AddSystem k sig).entityComponentSignatures = r.entityComponentSignatures := by
  unfold Registry.AddSystem
  cases alookup k r.systems <;> rfl

/-- No `AddComponent` for `(e, cid)` in a run keeps bit `cid` of `e`'s signature clear. -/
lemma testBit_runFrom_false (ops : List Op) (r : Registry) (e cid : Nat)
    (hops : ∀ v : Nat, Op.addComponent e cid v ∉ ops)
    (h : Nat.testBit (r.entityComponentSignatures e) cid = false) :
    Nat.testBit ((runFrom r ops).entityComponentSignatures e) cid = false := by
  induction ops generalizing r with
  | nil => exact h
  | cons op rest ih =>
    have hops' : ∀ v : Nat, Op.addComponent e cid v ∉ rest :=
      fun v hv => hops v (List.mem_cons_of_mem _ hv)
    have hstep : Nat.testBit ((step r op).entityComponentSignatures e) cid = false := by
      cases op with
      | createEntity => exact h
      | addComponent e' c' v =>
        show Nat.testBit ((r.AddComponent e' c' v).entityComponentSignatures e) cid = false
        by_cases he : e = e'
        · subst he
          have hc : c' ≠ cid := by
            intro hc
            subst hc
            exact hops v (List.mem_cons_self _ _)
          calc Nat.testBit ((r.AddComponent e c' v).entityComponentSignatures e) cid
              = Nat.testBit (sigSet (r.entityComponentSignatures e) c') cid := by
                simp [Registry.AddComponent]
            _ = Nat.testBit (r.entityComponentSignatures e) cid :=
                testBit_sigSet_ne _ _ _ (Ne.symm hc)
            _ = false := h
        · simpa [Registry.AddComponent, he] using h
      | removeComponent e' c' =>
        show Nat.testBit ((r.RemoveComponent e' c').entityComponentSignatures e) cid = false
        by_cases he : e = e'
        · subst he
          by_cases hc : c' = cid
          · subst hc
            simp [Registry.RemoveComponent, testBit_sigClear_self]
          · simpa [Registry.RemoveComponent,
              testBit_sigClear_ne (r.entityComponentSignatures e) c' cid
                (fun hcc => hc hcc.symm)] using h
        · simpa [Registry.RemoveComponent, he] using h
      | addSystem k sig => simpa [step, signatures_step_addSystem] using h
      | update => simpa [step, Update_eq] using h
    exact ih (step r op) hops' hstep

/-- The pool slot written by `AddComponent`: the kind's pool exists afterwards and
holds the just-constructed value at the entity's index. -/
lemma AddComponent_pool (r : Registry) (eid cid v : Nat) :
    ∃ p : Pool, (r.AddComponent eid cid v).componentPools[cid]? = some (some p)
      ∧ p.data eid = v := by
  have hlen : cid < (if r.componentPools.length ≤ cid
      then r.componentPools
        ++ List.replicate (cid + 1 - r.componentPools.length) (none : Option Pool)
      else r.componentPools).length := by
    by_cases hc : r.componentPools.length ≤ cid <;> simp [hc] <;> omega
  simp only [Registry.AddComponent]
  exact ⟨_, List.getElem?_set_self hlen, by simp [Pool.set]⟩

/-- Claim C6: removing a component kind an entity never had leaves the registry
(and in particular that entity's signature) unchanged, and adding the same kind
twice in a row sets bit `cid` exactly once on top of the prior signature and
leaves the second call's value stored at the entity's pool index. -/
theorem c6_attach_detach_idempotence :
    (∀ (ops : List Op) (e cid : Nat),
       (∀ v : Nat, Op.addComponent e cid v ∉ ops) →
       step (runOps ops) (Op.removeComponent e cid) = runOps ops)
    ∧ (∀ (r : Registry) (e cid v₁ v₂ : Nat),
         ((r.AddComponent e cid v₁).AddComponent e cid v₂).entityComponentSignatures e
           = sigSet (r.entityComponentSignatures e) cid
         ∧ ∃ p : Pool,
             ((r.AddComponent e cid v₁).AddComponent e cid v₂).componentPools[cid]?
               = some (some p)
             ∧ p.data e = v₂) := by
  constructor
  · intro ops e cid hops
    have hbit : Nat.testBit ((runOps ops).entityComponentSignatures e) cid = false :=
      testBit_runFrom_false ops initRegistry e cid hops (by simp [initRegistry])
    exact RemoveComponent_of_testBit_false _ _ _ hbit
  · intro r e cid v₁ v₂
    refine ⟨?_, AddComponent_pool (r.AddComponent e cid v₁) e cid v₂⟩
    simp [Registry.AddComponent, sigSet_idem]

/-- Witness for C6: entity 0 is created but never given kind 0, so removal is the
identity; and adding kind 0 twice (payloads 3 then 8) to a fresh registry sets
bit 0 once and stores payload 8. -/
theorem c6_witness :
    (step (runOps [Op.createEntity]) (Op.removeComponent 0 0) = runOps [Op.createEntity])
    ∧ (((initRegistry.AddComponent 0 0 3).AddComponent 0 0 8).entityComponentSignatures 0
        = sigSet (initRegistry.entityComponentSignatures 0) 0)
    ∧ ∃ p : Pool,
        ((initRegistry.AddComponent 0 0 3).AddComponent 0 0 8).componentPools[0]?
          = some (some p)
        ∧ p.data 0 = 8 :=
  ⟨c6_attach_detach_idempotence.1 [Op.createEntity] 0 0
      (by
        intro v hv
        exact Op.noConfusion (List.mem_singleton.mp hv)),
   (c6_attach_detach_idempotence.2 initRegistry 0 0 3 8).1,
   (c6_attach_detach_idempotence.2 initRegistry 0 0 3 8).2⟩

/-- Claim C7: when entity `e` has kind `cid` attached, `RemoveComponent` clears
exactly that one signature bit: every other bit of `e`'s signature, every other
entity's signature slot, the component pools (hence every stored value and every
pool length), the registered systems with their matched lists, and the pending
sets are all unchanged. -/
theorem c7_remove_component_frame (r : Registry) (e cid : Nat)
    (h : Nat.testBit (r.entityComponentSignatures e) cid = true) :
    r.HasComponent e cid = true
    ∧ Nat.testBit ((r.RemoveComponent e cid).entityComponentSignatures e) cid = false
    ∧ (∀ j : Nat, j ≠ cid →
        Nat.testBit ((r.RemoveComponent e cid).entityComponentSignatures e) j
          = Nat.testBit (r.entityComponentSignatures e) j)
    ∧ (∀ e' : Nat, e' ≠ e →
        (r.RemoveComponent e cid).entityComponentSignatures e'
          = r.entityComponentSignatures e')
    ∧ (r.RemoveComponent e cid).componentPools = r.componentPools
    ∧ (r.RemoveComponent e cid).systems = r.systems
    ∧ (r.RemoveComponent e cid).entitiesToBeAdded = r.entitiesToBeAdded
    ∧ (r.RemoveComponent e cid).numEntities = r.numEntities := by
  refine ⟨h, ?_, ?_, ?_, rfl, rfl, rfl, rfl⟩
  · simp [Registry.RemoveComponent, testBit_sigClear_self]
  · intro j hj
    simp [Registry.RemoveComponent, testBit_sigClear_ne _ _ _ hj]
  · intro e' he'
    simp [Registry.RemoveComponent, he']

/-- Witness for C7: entity 0 of a concrete registry has kind 0 attached (payload
5) and also kind 1 (payload 9); removing kind 0 clears only bit 0. -/
theorem c7_witness :
    (runOps [Op.createEntity, Op.addComponent 0 0 5, Op.addComponent 0 1 9]).HasComponent 0 0 = true
    ∧ Nat.testBit (((runOps [Op.createEntity, Op.addComponent 0 0 5, Op.addComponent 0 1 9]).RemoveComponent 0 0).entityComponentSignatures 0) 0 = false
    ∧ (∀ j : Nat, j ≠ 0 →
        Nat.testBit (((runOps [Op.createEntity, Op.addComponent 0 0 5, Op.addComponent 0 1 9]).RemoveComponent 0 0).entityComponentSignatures 0) j
          = Nat.testBit ((runOps [Op.createEntity, Op.addComponent 0 0 5, Op.addComponent 0 1 9]).entityComponentSignatures 0) j)
    ∧ (∀ e' : Nat, e' ≠ 0 →
        ((runOps [Op.createEntity, Op.addComponent 0 0 5, Op.addComponent 0 1 9]).RemoveComponent 0 0).entityComponentSignatures e'
          = (runOps [Op.createEntity, Op.addComponent 0 0 5, Op.addComponent 0 1 9]).entityComponentSignatures e')
    ∧ ((runOps [Op.createEntity, Op.addComponent 0 0 5, Op.addComponent 0 1 9]).RemoveComponent 0 0).componentPools
        = (runOps [Op.createEntity, Op.addComponent 0 0 5, Op.addComponent 0 1 9]).componentPools
    ∧ ((runOps [Op.createEntity, Op.addComponent 0 0 5, Op.addComponent 0 1 9]).RemoveComponent 0 0).systems
        = (runOps [Op.createEntity, Op.addComponent 0 0 5, Op.addComponent 0 1 9]).systems
    ∧ ((runOps [Op.createEntity, Op.addComponent 0 0 5, Op.addComponent 0 1 9]).RemoveComponent 0 0).entitiesToBeAdded
        = (runOps [Op.createEntity, Op.addComponent 0 0 5, Op.addComponent 0 1 9]).entitiesToBeAdded
    ∧ ((runOps [Op.createEntity, Op.addComponent 0 0 5, Op.addComponent 0 1 9]).RemoveComponent 0 0).numEntities
        = (runOps [Op.createEntity, Op.addComponent 0 0 5, Op.addComponent 0 1 9]).numEntities :=
  c7_remove_component_frame
    (runOps [Op.createEntity, Op.addComponent 0 0 5, Op.addComponent 0 1 9]) 0 0
    (by decide)

lemma alookup_interestedStep (k sg e : Nat) (sys : List (Nat × ECSSystem)) :
    alookup k (interestedStep sg e sys)
      = (alookup k sys).map (fun s =>
          if Nat.land sg s.componentSignature = s.componentSignature
          then s.AddEntityToSystem e else s) := by
  induction sys with
  | nil => rfl
  | cons p ps ih =>
    by_cases hi : Nat.land sg p.2.componentSignature = p.2.componentSignature
    <;> by_cases hk : p.1 = k
    <;> simp [interestedStep, alookup, hi, hk] at ih ⊢
    <;> simpa [interestedStep] using ih

lemma alookup_drainSystems (sigf : Nat → Nat) (l : List Nat)
    (sys : List (Nat × ECSSystem)) (k : Nat) :
    alookup k (drainSystems sigf l sys)
      = (alookup k sys).map (fun s =>
          { s with entities := s.entities ++ l.filter (fun e =>
              decide (Nat.land (sigf e) s.componentSignature = s.componentSignature)) }) := by
  induction l generalizing sys with
  | nil =>
    cases h : alookup k sys <;> simp [drainSystems, h]
  | cons e l ih =>
    show alookup k (drainSystems sigf l (interestedStep (sigf e) e sys)) = _
    rw [ih (interestedStep (sigf e) e sys), alookup_interestedStep]
    cases h : alookup k sys with
    | none => simp
    | some s =>
      by_cases hi : Nat.land (sigf e) s.componentSignature = s.componentSignature
      · simp [hi, ECSSystem.AddEntityToSystem]
      · simp [hi]

lemma alookup_append {β : Type} (k : Nat) (l₁ l₂ : List (Nat × β)) :
    alookup k (l₁ ++ l₂)
      = match alookup k l₁ with
        | some s => some s
        | none => alookup k l₂ := by
  induction l₁ with
  | nil => rfl
  | cons p ps ih => by_cases hk : p.1 = k <;> simp [alookup, hk, ih]

lemma alookup_mem {β : Type} {k : Nat} {l : List (Nat × β)} {s : β}
    (h : alookup k l = some s) : (k, s) ∈ l := by
  induction l with
  | nil => simp [alookup] at h
  | cons p ps ih =>
    by_cases hk : p.1 = k
    · simp only [alookup, hk, if_pos] at h
      have hp : p = (k, s) := by
        cases p
        simp_all
      rw [hp]
      exact List.mem_cons_self _ _
    · simp only [alookup, hk, if_neg, ite_false] at h
      exact List.mem_cons_of_mem _ (ih h)

lemma mem_setInsert {x a : Nat} {l : List Nat} : x ∈ setInsert a l ↔ x = a ∨ x ∈ l := by
  induction l with
  | nil => simp [setInsert]
  | cons y ys ih =>
    unfold setInsert
    by_cases h1 : a < y
    · simp [h1]
    · by_cases h2 : a = y
      · subst h2
        simp [h1]
      · simp [h1, h2, ih]
        tauto

/-- Invariant preserved by every operation: pending entities and matched entities
have already-allocated ids, and pending entities are in no matched list yet. -/
def RegInv (r : Registry) : Prop :=
  (∀ e ∈ r.entitiesToBeAdded, e < r.numEntities)
  ∧ (∀ p ∈ r.systems, ∀ e ∈ p.2.entities, e < r.numEntities)
  ∧ (∀ e ∈ r.entitiesToBeAdded, ∀ p ∈ r.systems, e ∉ p.2.entities)

lemma regInv_init : RegInv initRegistry := by
  refine ⟨?_, ?_, ?_⟩ <;> intro e he <;> simp [initRegistry] at he

lemma mem_drainSystems_entities (sigf : Nat → Nat) (l : List Nat)
    (sys : List (Nat × ECSSystem)) :
    ∀ p ∈ drainSystems sigf l sys,
      ∃ q ∈ sys, ∀ x ∈ p.2.entities, x ∈ q.2.entities ∨ x ∈ l := by
  induction l generalizing sys with
  | nil => exact fun p hp => ⟨p, hp, fun x hx => .inl hx⟩
  | cons e l ih =>
    intro p hp
    obtain ⟨q', hq', hsub⟩ := ih (interestedStep (sigf e) e sys) p hp
    obtain ⟨q, hq, hfq⟩ := List.mem_map.mp hq'
    refine ⟨q, hq, fun x hx => ?_⟩
    rcases hsub x hx with hx' | hx'
    · rw [← hfq] at hx'
      by_cases hi : Nat.land (sigf e) q.2.componentSignature = q.2.componentSignature
      · simp only [hi, if_pos, ECSSystem.AddEntityToSystem] at hx'
        rcases List.mem_append.mp hx' with h | h
        · exact .inl h
        · simp at h
          subst h
          exact .inr (List.mem_cons_self _ _)
      · simp only [hi, if_neg, ite_false] at hx'
        exact .inl hx'
    · exact .inr (List.mem_cons_of_mem _ hx')

lemma regInv_step (r : Registry) (op : Op) (h : RegInv r) : RegInv (step r op) := by
  obtain ⟨h1, h2, h3⟩ := h
  cases op with
  | createEntity =>
    refine ⟨?_, ?_, ?_⟩
    · intro e he
      rcases mem_setInsert.mp he with rfl | he'
      · exact Nat.lt_succ_self _
      · exact Nat.lt_succ_of_lt (h1 e he')
    · intro p hp e he
      exact Nat.lt_succ_of_lt (h2 p hp e he)
    · intro e he p hp
      rcases mem_setInsert.mp he with rfl | he'
      · intro hmem
        exact absurd (h2 p hp _ hmem) (lt_irrefl _)
      · exact h3 e he' p hp
  | addComponent e' c' v => exact ⟨h1, h2, h3⟩
  | removeComponent e' c' => exact ⟨h1, h2, h3⟩
  | addSystem k sig =>
    show RegInv (r.AddSystem k sig)
    unfold Registry.AddSystem
    cases alookup k r.systems with
    | some s => exact ⟨h1, h2, h3⟩
    | none =>
      refine ⟨h1, ?_, ?_⟩
      · intro p hp e he
        rcases List.mem_append.mp hp with hp' | hp'
        · exact h2 p hp' e he
        · simp at hp'
          rw [hp'] at he
          simp at he
      · intro e he p hp
        rcases List.mem_append.mp hp with hp' | hp'
        · exact h3 e he p hp'
        · simp at hp'
          rw [hp']
          simp
  | update =>
    show RegInv r.Update
    rw [Update_eq]
    refine ⟨?_, ?_, ?_⟩
    · intro e he
      simp at he
    · intro p hp e he
      obtain ⟨q, hq, hsub⟩ := mem_drainSystems_entities _ _ _ p hp
      rcases hsub e he with hq' | hl
      · exact h2 q hq e hq'
      · exact h1 e hl
    · intro e he
      simp at he

lemma memb_false_of_pending {r : Registry} {e : Nat} (h : RegInv r)
    (he : e ∈ r.entitiesToBeAdded) (k : Nat) : memb r k e = false := by
  unfold memb
  cases hf : alookup k r.systems with
  | none => rfl
  | some s =>
    have hnot := h.2.2 e he (k, s) (alookup_mem hf)
    simp [hnot]

lemma memb_step_ne_update (r : Registry) (op : Op) (k e : Nat) (h : op ≠ Op.update) :
    memb (step r op) k e = memb r k e := by
  cases op with
  | update => exact absurd rfl h
  | createEntity => rfl
  | addComponent e' c' v => rfl
  | removeComponent e' c' => rfl
  | addSystem k' sig =>
    show memb (r.AddSystem k' sig) k e = memb r k e
    unfold Registry.AddSystem
    cases hfind : alookup k' r.systems with
    | some s => rfl
    | none =>
      unfold memb
      rw [show ({ r with systems := r.systems ++ [(k', ⟨sig, []⟩)] } : Registry).systems
            = r.systems ++ [(k', (⟨sig, []⟩ : ECSSystem))] from rfl]
      rw [alookup_append]
      cases hk : alookup k r.systems with
      | some s => rfl
      | none => by_cases hkk : k' = k <;> simp [alookup, hkk]

lemma memb_Update (r : Registry) (k e : Nat) :
    memb r.Update k e
      = (memb r k e || (decide (e ∈ r.entitiesToBeAdded) && matchesAt r e k)) := by
  rw [Update_eq]
  unfold memb matchesAt
  rw [show ({ r with
        systems := drainSystems r.entityComponentSignatures r.entitiesToBeAdded r.systems,
        entitiesToBeAdded := ([] : List Nat) } : Registry).systems
      = drainSystems r.entityComponentSignatures r.entitiesToBeAdded r.systems from rfl]
  rw [alookup_drainSystems]
  cases h : alookup k r.systems with
  | none => simp
  | some s =>
    by_cases h1 : e ∈ s.entities
    <;> by_cases h2 : e ∈ r.entitiesToBeAdded
    <;> by_cases h3 : Nat.land (r.entityComponentSignatures e) s.componentSignature
          = s.componentSignature
    <;> simp [h1, h2, h3, List.mem_append, List.mem_filter]

lemma lastDrainState_cons (r : Registry) (op : Op) (rest : List Op) (e : Nat) :
    lastDrainState r (op :: rest) e
      = match lastDrainState (step r op) rest e with
        | some r₀ => some r₀
        | none => match op with
                  | .update => if e ∈ r.entitiesToBeAdded then some r else none
                  | _ => none := rfl

lemma lastDrainState_cons_some {r : Registry} {op : Op} {rest : List Op} {e : Nat}
    {r₀ : Registry} (h : lastDrainState (step r op) rest e = some r₀) :
    lastDrainState r (op :: rest) e = some r₀ := by
  rw [lastDrainState_cons, h]

lemma lastDrainState_cons_none_nonupdate {r : Registry} {op : Op} {rest : List Op}
    {e : Nat} (h : lastDrainState (step r op) rest e = none) (hop : op ≠ Op.update) :
    lastDrainState r (op :: rest) e = none := by
  rw [lastDrainState_cons, h]
  cases op with
  | update => exact absurd rfl hop
  | _ => rfl

lemma lastDrainState_cons_none_update {r : Registry} {rest : List Op} {e : Nat}
    (h : lastDrainState (step r Op.update) rest e = none) :
    lastDrainState r (Op.update :: rest) e
      = if e ∈ r.entitiesToBeAdded then some r else none := by
  rw [lastDrainState_cons, h]

/-- Core characterization: after running `ops` from a state satisfying the
invariant, an entity is in a system's matched list exactly when it matched that
system at the moment it was last drained, or it was already a member and was
never drained. -/
lemma c1_aux (ops : List Op) (r : Registry) (hInv : RegInv r) (e k : Nat) :
    memb (runFrom r ops) k e = true ↔
      ((∃ r₀, lastDrainState r ops e = some r₀ ∧ matchesAt r₀ e k = true)
       ∨ (lastDrainState r ops e = none ∧ memb r k e = true)) := by
  induction ops generalizing r with
  | nil =>
    simp [runFrom, lastDrainState]
  | cons op rest ih =>
    have hInv' := regInv_step r op hInv
    show memb (runFrom (step r op) rest) k e = true ↔ _
    rw [ih (step r op) hInv']
    cases hrest : lastDrainState (step r op) rest e with
    | some r₀ =>
      rw [lastDrainState_cons_some hrest]
      simp
    | none =>
      cases hop : op with
      | update =>
        rw [hop] at hrest
        rw [lastDrainState_cons_none_update hrest]
        have hup : memb (step r Op.update) k e
            = (memb r k e || (decide (e ∈ r.entitiesToBeAdded) && matchesAt r e k)) :=
          memb_Update r k e
        by_cases hpend : e ∈ r.entitiesToBeAdded
        · have hmemb := memb_false_of_pending hInv hpend k
          rw [hup, hmemb]
          simp [hpend]
        · rw [hup]
          simp [hpend]
      | createEntity =>
        rw [hop] at hrest
        rw [lastDrainState_cons_none_nonupdate hrest (by simp),
          memb_step_ne_update r Op.createEntity k e (by simp)]
      | addComponent e' c' v =>
        rw [hop] at hrest
        rw [lastDrainState_cons_none_nonupdate hrest (by simp),
          memb_step_ne_update r (Op.addComponent e' c' v) k e (by simp)]
      | removeComponent e' c' =>
        rw [hop] at hrest
        rw [lastDrainState_cons_none_nonupdate hrest (by simp),
          memb_step_ne_update r (Op.removeComponent e' c') k e (by simp)]
      | addSystem k' sig =>
        rw [hop] at hrest
        rw [lastDrainState_cons_none_nonupdate hrest (by simp),
          memb_step_ne_update r (Op.addSystem k' sig) k e (by simp)]

lemma lastDrainState_none_of_no_update (ops : List Op) (r : Registry) (e : Nat)
    (h : Op.update ∉ ops) : lastDrainState r ops e = none := by
  induction ops generalizing r with
  | nil => rfl
  | cons op rest ih =>
    have h1 : Op.update ∉ rest := fun hm => h (List.mem_cons_of_mem _ hm)
    have h2 : op ≠ Op.update := fun he => h (he ▸ List.mem_cons_self _ _)
    exact lastDrainState_cons_none_nonupdate (ih (step r op) h1) h2

/-- Claim C1: for every entity `e` and system key `k`, after any run of registry
operations, `e` is in the matched list of the system keyed `k` exactly when, at
the moment an `Update()` call last drained `e` from the pending-add set, the
system was registered and `(e.signature & s.requiredSignature) ==
s.requiredSignature` held; and no operation other than `Update` ever changes any
system membership. -/
theorem c1_membership_iff_matched_at_last_drain :
    (∀ (ops : List Op) (e k : Nat),
       memb (runOps ops) k e = true ↔
         ∃ r₀, lastDrainState initRegistry ops e = some r₀ ∧ matchesAt r₀ e k = true)
    ∧ (∀ (r : Registry) (op : Op) (k e : Nat), op ≠ Op.update →
         memb (step r op) k e = memb r k e) := by
  constructor
  · intro ops e k
    have h := c1_aux ops initRegistry regInv_init e k
    have hinit : memb initRegistry k e = false := rfl
    rw [hinit] at h
    simpa using h
  · exact fun r op k e h => memb_step_ne_update r op k e h

/-- Witness for C1, on the concrete C9 run: entity 2's absence from the system
keyed 0 is equivalent to it not matching at its drain moment, and a non-update
operation (`AddComponent` on a concrete registry) does not change membership. -/
theorem c1_witness :
    (memb (runOps c9Ops) 0 2 = true ↔
       ∃ r₀, lastDrainState initRegistry c9Ops 2 = some r₀ ∧ matchesAt r₀ 2 0 = true)
    ∧ memb (step (runOps c9Ops) (Op.addComponent 2 0 7)) 0 2 = memb (runOps c9Ops) 0 2 :=
  ⟨c1_membership_iff_matched_at_last_drain.1 c9Ops 2 0,
   c1_membership_iff_matched_at_last_drain.2 (runOps c9Ops) (Op.addComponent 2 0 7) 0 2
     (by decide)⟩

/-- Claim C2: in any run containing no `Update()` call, no entity is in any
system's matched list — entities created and given components are invisible to
systems until the next `Update()`, even when their signatures already match. -/
theorem c2_no_membership_before_update (ops : List Op) (h : Op.update ∉ ops)
    (e k : Nat) : memb (runOps ops) k e = false := by
  have haux := c1_aux ops initRegistry regInv_init e k
  rw [lastDrainState_none_of_no_update ops initRegistry e h] at haux
  have hinit : memb initRegistry k e = false := rfl
  rw [hinit] at haux
  simp at haux
  exact haux

/-- Witness for C2: entity 0 is created, given kind 0 (payload 7), and a system
keyed 1 requiring exactly kind 0 is registered; before any update the entity is
not in its matched list although its signature already matches. -/
theorem c2_witness :
    memb (runOps [Op.createEntity, Op.addComponent 0 0 7, Op.addSystem 1 (2 ^ 0)]) 1 0
      = false :=
  c2_no_membership_before_update
    [Op.createEntity, Op.addComponent 0 0 7, Op.addSystem 1 (2 ^ 0)] (by decide) 0 1

/-- Models the state behind `Component<T>::GetId` (ECS.h): the static counter
`IComponent::nextId` (initialized to 0 in ECS.cpp) together with, for each
component kind whose `GetId` has already run once, the value captured by its
function-local `static auto id = nextId++` (kinds, i.e. the types `T`, are
modelled as opaque `Nat` keys; `assigned` lists them in first-resolution order). -/
structure IdState where
  nextId : Nat
  assigned : List (Nat × Nat)
deriving DecidableEq

/-- Models one call `Component<T>::GetId()` for kind `t`: on the first call for
`t` the static local captures `nextId++`; every later call returns the captured
value. The function is total — the source contains no check against
`MAX_COMPONENTS` and no failure path. -/
def GetId (t : Nat) (st : IdState) : Nat × IdState :=
  match alookup t st.assigned with
  | some i => (i, st)
  | none => (st.nextId, ⟨st.nextId + 1, st.assigned ++ [(t, st.nextId)]⟩)

/-- Process start: `int IComponent::nextId = 0;` and no static local initialized. -/
def initIdState : IdState := ⟨0, []⟩

/-- Run a sequence of `GetId` calls (by kind) from a given state. -/
def runGetIdsFrom (st : IdState) (ts : List Nat) : IdState :=
  ts.foldl (fun s t => (GetId t s).2) st

/-- Run a sequence of `GetId` calls from process start. -/
def runGetIds (ts : List Nat) : IdState := runGetIdsFrom initIdState ts

/-- The integer a `GetId` call for kind `t` returns in state `st`. -/
def idOf (t : Nat) (st : IdState) : Nat := (GetId t st).1

/-- The kinds of `ts` not already in `seen`, kept in first-use order. -/
def newKinds (seen : List Nat) : List Nat → List Nat
  | [] => []
  | t :: ts => if t ∈ seen then newKinds seen ts else t :: newKinds (t :: seen) ts

/-- Position of the first occurrence of `t` in a list. -/
def firstIdx (t : Nat) : List Nat → Option Nat
  | [] => none
  | k :: ks => if k = t then some 0 else (firstIdx t ks).map (· + 1)

lemma alookup_zip_range' (ks : List Nat) (s t : Nat) :
    alookup t (ks.zip (List.range' s ks.length))
      = (firstIdx t ks).map (· + s) := by
  induction ks generalizing s with
  | nil => rfl
  | cons k ks ih =>
    rw [show (k :: ks).length = ks.length + 1 from rfl,
      List.range'_succ s ks.length 1]
    by_cases hk : k = t
    · simp [alookup, firstIdx, hk]
    · rw [show (k :: ks).zip (s :: List.range' (s + 1) ks.length)
            = (k, s) :: ks.zip (List.range' (s + 1) ks.length) from rfl]
      rw [show alookup t ((k, s) :: ks.zip (List.range' (s + 1) ks.length))
            = alookup t (ks.zip (List.range' (s + 1) ks.length)) by simp [alookup, hk]]
      rw [ih (s + 1)]
      rw [show firstIdx t (k :: ks) = (firstIdx t ks).map (· + 1) by simp [firstIdx, hk]]
      cases firstIdx t ks with
      | none => rfl
      | some i =>
        simp
        omega

lemma firstIdx_of_not_mem {t : Nat} {ks : List Nat} (h : t ∉ ks) :
    firstIdx t ks = none := by
  induction ks with
  | nil => rfl
  | cons k ks ih =>
    have hk : k ≠ t := fun he => h (he ▸ List.mem_cons_self _ _)
    have h2 : t ∉ ks := fun hm => h (List.mem_cons_of_mem _ hm)
    simp [firstIdx, hk, ih h2]

lemma firstIdx_of_mem {t : Nat} {ks : List Nat} (h : t ∈ ks) :
    ∃ i, firstIdx t ks = some i := by
  induction ks with
  | nil => simp at h
  | cons k ks ih =>
    by_cases hk : k = t
    · exact ⟨0, by simp [firstIdx, hk]⟩
    · have h2 : t ∈ ks := by
        rcases List.mem_cons.mp h with he | hm
        · exact absurd he.symm hk
        · exact hm
      obtain ⟨i, hi⟩ := ih h2
      exact ⟨i + 1, by simp [firstIdx, hk, hi]⟩

lemma firstIdx_lt_length {t : Nat} {ks : List Nat} {i : Nat}
    (h : firstIdx t ks = some i) : i < ks.length := by
  induction ks generalizing i with
  | nil => simp [firstIdx] at h
  | cons k ks ih =>
    by_cases hk : k = t
    · simp [firstIdx, hk] at h
      simp [List.length_cons]
      omega
    · simp only [firstIdx, hk, ite_false, if_neg] at h
      cases hfi : firstIdx t ks with
      | none => rw [hfi] at h; simp at h
      | some j =>
        rw [hfi] at h
        simp at h
        have := ih hfi
        simp [show (k :: ks).length = ks.length + 1 from rfl]
        omega

lemma firstIdx_getElem {t : Nat} {ks : List Nat} {i : Nat}
    (h : firstIdx t ks = some i) : ks[i]? = some t := by
  induction ks generalizing i with
  | nil => simp [firstIdx] at h
  | cons k ks ih =>
    by_cases hk : k = t
    · simp [firstIdx, hk] at h
      subst h
      simp [hk]
    · simp only [firstIdx, hk, ite_false, if_neg] at h
      cases hfi : firstIdx t ks with
      | none => rw [hfi] at h; simp at h
      | some j =>
        rw [hfi] at h
        simp at h
        subst h
        simpa using ih hfi

lemma firstIdx_append_left {t : Nat} {ks : List Nat} (ks2 : List Nat) (h : t ∈ ks) :
    firstIdx t (ks ++ ks2) = firstIdx t ks := by
  induction ks with
  | nil => simp at h
  | cons k ks ih =>
    by_cases hk : k = t
    · simp [firstIdx, hk]
    · have h2 : t ∈ ks := by
        rcases List.mem_cons.mp h with he | hm
        · exact absurd he.symm hk
        · exact hm
      simp [firstIdx, hk, ih h2]

lemma newKinds_congr {s₁ s₂ : List Nat} (ts : List Nat)
    (h : ∀ x, x ∈ s₁ ↔ x ∈ s₂) : newKinds s₁ ts = newKinds s₂ ts := by
  induction ts generalizing s₁ s₂ with
  | nil => rfl
  | cons t ts ih =>
    by_cases ht : t ∈ s₁
    · simp [newKinds, ht, (h t).mp ht, ih h]
    · have ht2 : t ∉ s₂ := fun hm => ht ((h t).mpr hm)
      have h' : ∀ x, x ∈ t :: s₁ ↔ x ∈ t :: s₂ := by
        intro x
        simp [List.mem_cons, h x]
      simp [newKinds, ht, ht2, ih h']

lemma mem_newKinds {t : Nat} {ts : List Nat} (seen : List Nat)
    (hts : t ∈ ts) (hseen : t ∉ seen) : t ∈ newKinds seen ts := by
  induction ts generalizing seen with
  | nil => simp at hts
  | cons u ts ih =>
    by_cases hu : u = t
    · subst hu
      simp [newKinds, hseen]
    · have hts2 : t ∈ ts := by
        rcases List.mem_cons.mp hts with he | hm
        · exact absurd he.symm hu
        · exact hm
      by_cases hus : u ∈ seen
      · simp only [newKinds, hus, if_pos, ite_true]
        exact ih seen hts2 hseen
      · simp only [newKinds, hus, if_neg, ite_false]
        refine List.mem_cons_of_mem _ (ih (u :: seen) hts2 ?_)
        intro hm
        rcases List.mem_cons.mp hm with he | hm'
        · exact hu he.symm
        · exact hseen hm'

lemma newKinds_subset {x : Nat} : ∀ (ts seen : List Nat), x ∈ newKinds seen ts → x ∈ ts := by
  intro ts
  induction ts with
  | nil => intro seen h; simp [newKinds] at h
  | cons t ts ih =>
    intro seen h
    by_cases ht : t ∈ seen
    · simp only [newKinds, ht, if_pos, ite_true] at h
      exact List.mem_cons_of_mem _ (ih seen h)
    · simp only [newKinds, ht, if_neg, ite_false] at h
      rcases List.mem_cons.mp h with he | hm
      · exact he ▸ List.mem_cons_self _ _
      · exact List.mem_cons_of_mem _ (ih (t :: seen) hm)

/-- Running `GetId` calls preserves the shape of the assignment table: the kinds
resolved so far, paired with `0, 1, 2, ...` in first-resolution order. -/
lemma runGetIdsFrom_char (ts : List Nat) :
    ∀ (ks : List Nat) (st : IdState),
      st.nextId = ks.length → st.assigned = ks.zip (List.range' 0 ks.length) →
      (runGetIdsFrom st ts).nextId = (ks ++ newKinds ks ts).length
      ∧ (runGetIdsFrom st ts).assigned
          = (ks ++ newKinds ks ts).zip (List.range' 0 (ks ++ newKinds ks ts).length) := by
  induction ts with
  | nil =>
    intro ks st h1 h2
    simp [runGetIdsFrom, newKinds, h1, h2]
  | cons t ts ih =>
    intro ks st h1 h2
    have hlook : alookup t st.assigned = (firstIdx t ks).map (· + 0) := by
      rw [h2, alookup_zip_range']
    have hrun : runGetIdsFrom st (t :: ts) = runGetIdsFrom (GetId t st).2 ts := rfl
    by_cases hmem : t ∈ ks
    · obtain ⟨i, hi⟩ := firstIdx_of_mem hmem
      have hlook2 : alookup t st.assigned = some i := by
        rw [hlook, hi]
        simp
      have hsnd : (GetId t st).2 = st := by
        unfold GetId
        rw [hlook2]
      have hnew : newKinds ks (t :: ts) = newKinds ks ts := by
        simp [newKinds, hmem]
      rw [hrun, hsnd, hnew]
      exact ih ks st h1 h2
    · have hlook2 : alookup t st.assigned = none := by
        rw [hlook, firstIdx_of_not_mem hmem]
        rfl
      have hsnd : (GetId t st).2 = ⟨st.nextId + 1, st.assigned ++ [(t, st.nextId)]⟩ := by
        unfold GetId
        rw [hlook2]
      have h1' : (⟨st.nextId + 1, st.assigned ++ [(t, st.nextId)]⟩ : IdState).nextId
          = (ks ++ [t]).length := by
        simp [h1]
      have h2' : (⟨st.nextId + 1, st.assigned ++ [(t, st.nextId)]⟩ : IdState).assigned
          = (ks ++ [t]).zip (List.range' 0 (ks ++ [t]).length) := by
        show st.assigned ++ [(t, st.nextId)] = _
        rw [h2, h1]
        rw [show (ks ++ [t]).length = ks.length + 1 by simp]
        rw [List.range'_concat 0 ks.length]
        rw [List.zip_append (by simp)]
        simp
      have hnew : newKinds ks (t :: ts) = t :: newKinds (t :: ks) ts := by
        simp [newKinds, hmem]
      have hcongr : newKinds (t :: ks) ts = newKinds (ks ++ [t]) ts := by
        refine newKinds_congr ts fun x => ?_
        simp [List.mem_cons, List.mem_append, or_comm]
      have hip := ih (ks ++ [t]) _ h1' h2'
      rw [hrun, hsnd, hnew, hcongr]
      rw [show ks ++ t :: newKinds (ks ++ [t]) ts
            = (ks ++ [t]) ++ newKinds (ks ++ [t]) ts by simp]
      exact hip

lemma runGetIds_char (ts : List Nat) :
    (runGetIds ts).nextId = (newKinds [] ts).length
    ∧ (runGetIds ts).assigned
        = (newKinds [] ts).zip (List.range' 0 (newKinds [] ts).length) := by
  simpa using runGetIdsFrom_char ts [] initIdState rfl rfl

lemma idOf_of_alookup {t : Nat} {st : IdState} {i : Nat}
    (h : alookup t st.assigned = some i) : idOf t st = i := by
  unfold idOf GetId
  rw [h]

lemma idOf_of_alookup_none {t : Nat} {st : IdState}
    (h : alookup t st.assigned = none) : idOf t st = st.nextId := by
  unfold idOf GetId
  rw [h]

/-- Claim C4: within one process, every `Component<T>::GetId()` call for the
same kind returns the same integer (stable under any sequence of further calls),
two distinct kinds always receive distinct integers, and the integer a kind
receives is its position in first-use order, starting from 0. -/
theorem c4_component_id_stable_distinct_first_use_order :
    ∀ (ts : List Nat) (t : Nat), t ∈ ts →
      (∀ more : List Nat,
         idOf t (runGetIdsFrom (runGetIds ts) more) = idOf t (runGetIds ts))
      ∧ (∀ u : Nat, u ∈ ts → u ≠ t →
           idOf u (runGetIds ts) ≠ idOf t (runGetIds ts))
      ∧ firstIdx t (newKinds [] ts) = some (idOf t (runGetIds ts)) := by
  intro ts t ht
  obtain ⟨hnext, hassigned⟩ := runGetIds_char ts
  have htK : t ∈ newKinds [] ts := mem_newKinds [] ht (by simp)
  obtain ⟨i, hi⟩ := firstIdx_of_mem htK
  have hlook : alookup t (runGetIds ts).assigned = some i := by
    rw [hassigned, alookup_zip_range', hi]
    simp
  have hid : idOf t (runGetIds ts) = i := idOf_of_alookup hlook
  refine ⟨?_, ?_, ?_⟩
  · intro more
    obtain ⟨hn2, ha2⟩ :=
      runGetIdsFrom_char more (newKinds [] ts) (runGetIds ts) hnext hassigned
    have hlook2 : alookup t (runGetIdsFrom (runGetIds ts) more).assigned = some i := by
      rw [ha2, alookup_zip_range', firstIdx_append_left _ htK, hi]
      simp
    rw [idOf_of_alookup hlook2, hid]
  · intro u hu hne
    have huK : u ∈ newKinds [] ts := mem_newKinds [] hu (by simp)
    obtain ⟨j, hj⟩ := firstIdx_of_mem huK
    have hlooku : alookup u (runGetIds ts).assigned = some j := by
      rw [hassigned, alookup_zip_range', hj]
      simp
    rw [idOf_of_alookup hlooku, hid]
    intro hji
    rw [hji] at hj
    have h1 := firstIdx_getElem hj
    have h2 := firstIdx_getElem hi
    rw [h1] at h2
    simp at h2
    exact hne h2
  · rw [hid]
    exact hi

/-- Witness for C4: in the run that resolves kinds 5, 7, 5, kind 7 is stable
under further calls, differs from kind 5's id, and sits at position 1 of the
first-use order. -/
theorem c4_witness :
    (7 ∈ [5, 7, 5])
    ∧ ((∀ more : List Nat,
          idOf 7 (runGetIdsFrom (runGetIds [5, 7, 5]) more) = idOf 7 (runGetIds [5, 7, 5]))
       ∧ (∀ u : Nat, u ∈ [5, 7, 5] → u ≠ 7 →
            idOf u (runGetIds [5, 7, 5]) ≠ idOf 7 (runGetIds [5, 7, 5]))
       ∧ firstIdx 7 (newKinds [] [5, 7, 5]) = some (idOf 7 (runGetIds [5, 7, 5]))) :=
  ⟨by decide, c4_component_id_stable_distinct_first_use_order [5, 7, 5] 7 (by decide)⟩

/-- Counterexample to claim C5 as stated: after the 32 distinct kinds 0..31 have
been resolved, resolving a 33rd distinct kind does not fail — `Component::GetId`
contains no check against `MAX_COMPONENTS` — and the id it assigns is 32, which
does not lie in `[0, MAX_COMPONENTS)`. -/
theorem c5_counterexample :
    idOf 32 (runGetIds (List.range 32)) = 32
    ∧ ¬ idOf 32 (runGetIds (List.range 32)) < MAX_COMPONENTS := by
  decide

/-- Claim C5 amended: component-kind id resolution never fails and enforces no
limit: every id assigned in a run lies in `[0, d)` where `d` is the number of
distinct kinds used so far, and a kind not yet resolved receives exactly id `d`,
even when `d ≥ MAX_COMPONENTS` (an out-of-range id only causes a failure later,
when it is used to address a signature bit). -/
theorem c5_amended_ids_unbounded :
    (∀ (ts : List Nat) (t : Nat), t ∈ ts →
       idOf t (runGetIds ts) < (newKinds [] ts).length)
    ∧ (∀ (ts : List Nat) (t : Nat), t ∉ ts →
       idOf t (runGetIds ts) = (newKinds [] ts).length) := by
  constructor
  · intro ts t ht
    obtain ⟨hnext, hassigned⟩ := runGetIds_char ts
    have htK : t ∈ newKinds [] ts := mem_newKinds [] ht (by simp)
    obtain ⟨i, hi⟩ := firstIdx_of_mem htK
    have hlook : alookup t (runGetIds ts).assigned = some i := by
      rw [hassigned, alookup_zip_range', hi]
      simp
    rw [idOf_of_alookup hlook]
    exact firstIdx_lt_length hi
  · intro ts t ht
    obtain ⟨hnext, hassigned⟩ := runGetIds_char ts
    have htK : t ∉ newKinds [] ts := fun hm => ht (newKinds_subset ts [] hm)
    have hlook : alookup t (runGetIds ts).assigned = none := by
      rw [hassigned, alookup_zip_range', firstIdx_of_not_mem htK]
      rfl
    rw [idOf_of_alookup_none hlook, hnext]

/-- Witness for C5 (amended): with kinds 4 and 6 used, kind 4's id is below the
distinct-kind count 2, and the fresh kind 9 receives exactly id 2. -/
theorem c5_witness :
    (4 ∈ [4, 6] ∧ idOf 4 (runGetIds [4, 6]) < (newKinds [] [4, 6]).length)
    ∧ (9 ∉ [4, 6] ∧ idOf 9 (runGetIds [4, 6]) = (newKinds [] [4, 6]).length) :=
  ⟨⟨by decide, c5_amended_ids_unbounded.1 [4, 6] 4 (by decide)⟩,
   ⟨by decide, c5_amended_ids_unbounded.2 [4, 6] 9 (by decide)⟩⟩
